import Mathlib

/-!
Shallow embedding of the conversion utilities in `conversores/`:
the name sanitizer, type inferencer and value escaper shared (near
verbatim) by `csv_to_psql/csv_to_psql_with_data.py` and
`xlsx_to_psql/xlsx_to_psql_with_data.py`, the DBF variant in
`dbc_to_psql/dbc_to_psql_with_data.py`, the SQL-line generation of
`csv_to_sql`, and the fault-tolerant catalog fetches of
`host-schema-psql_to_psql.py`.

Pure Python functions become Lean functions over an explicit value
domain `PyValue` (the values these scripts actually pass around:
None, float NaN from pandas, bool, int, str, datetime).  Python
builtins used by the scripts (`str`, `float`, `str.lower`, regexes)
are modelled for this domain, restricted to ASCII text; doc comments
note each approximation.
-/

/-! ## Character helpers (ASCII models of Python's classifiers) -/

/-- ASCII decimal digit, the class `[0-9]` and (on this domain)
Python's `str.isdigit`. -/
def isDigitA (c : Char) : Bool := 48 ≤ c.toNat && c.toNat ≤ 57

/-- ASCII uppercase letter, the class `[A-Z]`. -/
def isUpperA (c : Char) : Bool := 65 ≤ c.toNat && c.toNat ≤ 90

/-- ASCII lowercase letter, the class `[a-z]`. -/
def isLowerA (c : Char) : Bool := 97 ≤ c.toNat && c.toNat ≤ 122

/-- Python's regex class `\s`, modelled on its ASCII members
(space, tab, newline, carriage return, vertical tab, form feed);
the Unicode whitespace code points `\s` also matches are outside
the modelled text domain. -/
def pySpace (c : Char) : Bool :=
  c = ' ' || c = '\t' || c = '\n' || c = '\r' || c = '\x0b' || c = '\x0c'

/-- Python's `str.lower` / `str.upper` on ASCII: case-swap the ASCII
letters, leave everything else unchanged. -/
def asciiLower (c : Char) : Char :=
  if isUpperA c then Char.ofNat (c.toNat + 32) else c

/-- See `asciiLower`. -/
def asciiUpper (c : Char) : Char :=
  if isLowerA c then Char.ofNat (c.toNat - 32) else c

/-- Python `str.lower` over a whole string (ASCII model). -/
def pyLower (s : String) : String := String.mk (s.data.map asciiLower)

/-- Python `str.upper` over a whole string (ASCII model). -/
def pyUpper (s : String) : String := String.mk (s.data.map asciiUpper)

/-- Python's substring test `needle in hay` on the underlying
character lists: prefix test. -/
def isPrefixL : List Char → List Char → Bool
  | [], _ => true
  | _ :: _, [] => false
  | a :: as, b :: bs => a = b && isPrefixL as bs

/-- Python's substring test `needle in hay` on the underlying
character lists. -/
def containsL (needle : List Char) : List Char → Bool
  | [] => isPrefixL needle []
  | b :: bs => isPrefixL needle (b :: bs) || containsL needle bs

/-- Python's `needle in hay` for strings. -/
def strContains (hay needle : String) : Bool := containsL needle.data hay.data

/-! ## The embedded Python value domain -/

/-- A naive wall-clock datetime, as `datetime.datetime` /
`pd.Timestamp` carry it (sub-second precision unused by the
scripts). -/
structure PyDateTime where
  year : Nat
  month : Nat
  day : Nat
  hour : Nat
  minute : Nat
  second : Nat
deriving DecidableEq, Repr

/-- The Python values the conversion scripts pass to the escapers:
`None`, the float NaN pandas uses for missing cells, booleans,
integers, strings and datetimes.  (Finite floats appear in the
source only as native-numeric pass-throughs never exercised by the
claims; they are outside the embedded domain.) -/
inductive PyValue where
  | none
  | nan
  | bool (b : Bool)
  | int (n : Int)
  | str (s : String)
  | datetime (d : PyDateTime)
deriving DecidableEq, Repr

/-- Test `pd.isna(value) or value is None`: true exactly on `None` and
NaN. -/
def isNA : PyValue → Bool
  | .none => true
  | .nan => true
  | _ => false

/-- Test `pd.api.types.is_numeric_dtype(type(value))`: true for the
Python `int`, `float` and `bool` types. -/
def isNumericTypeValue : PyValue → Bool
  | .int _ => true
  | .bool _ => true
  | .nan => true
  | _ => false

/-- Zero-pad a number to two digits, as `strftime` does. -/
def pad2 (n : Nat) : String :=
  if n < 10 then "0" ++ toString n else toString n

/-- Zero-pad a year to four digits (`%Y`). -/
def pad4 (n : Nat) : String :=
  if n < 10 then "000" ++ toString n
  else if n < 100 then "00" ++ toString n
  else if n < 1000 then "0" ++ toString n
  else toString n

/-- Format `value.strftime('%Y-%m-%d')`. -/
def strftimeDate (d : PyDateTime) : String :=
  pad4 d.year ++ "-" ++ pad2 d.month ++ "-" ++ pad2 d.day

/-- Format `value.strftime('%Y-%m-%d %H:%M:%S')`. -/
def strftimeTs (d : PyDateTime) : String :=
  strftimeDate d ++ " " ++ pad2 d.hour ++ ":" ++ pad2 d.minute ++ ":" ++ pad2 d.second

/-- Python `str(value)` on the embedded domain (`str` of a datetime
with zero microseconds prints `YYYY-MM-DD HH:MM:SS`). -/
def pyStr : PyValue → String
  | .none => "None"
  | .nan => "nan"
  | .bool b => if b then "True" else "False"
  | .int n => toString n
  | .str s => s
  | .datetime d => strftimeTs d

/-! ## Model of `float(...)` / `str(float(...))`

Python's `float(s)` raises `ValueError` exactly when `s` is not a
well-formed float literal: optional surrounding whitespace, an
optional sign, then either `inf`/`infinity`/`nan` (case-insensitive)
or a digit run with an optional fraction and exponent, with single
underscores allowed between digits.  The syntax test below is the
model of that success/failure criterion (ASCII text; Unicode digits
are outside the domain). -/

/-- Consume the rest of a digit run after its first digit: further
digits, and single underscores that must sit between two digits.
Returns the unconsumed remainder. -/
def digitTail : List Char → List Char
  | [] => []
  | [c] => if isDigitA c then [] else [c]
  | c :: d :: rest =>
    if isDigitA c then digitTail (d :: rest)
    else if c = '_' && isDigitA d then digitTail rest
    else c :: d :: rest

/-- A `digitpart` of the float grammar: at least one digit, then
`digitTail`.  Returns the remainder, or `none` when there is no
leading digit. -/
def parseDigitpart (l : List Char) : Option (List Char) :=
  match l with
  | c :: rest => if isDigitA c then some (digitTail rest) else none
  | [] => none

/-- The mantissa of the float grammar: `digits [. [digits]]` or
`. digits`. -/
def parseMantissa (l : List Char) : Option (List Char) :=
  match parseDigitpart l with
  | some rest =>
    match rest with
    | '.' :: rest2 =>
      match parseDigitpart rest2 with
      | some rest3 => some rest3
      | Option.none => some rest2
    | _ => some rest
  | Option.none =>
    match l with
    | '.' :: rest2 => parseDigitpart rest2
    | _ => Option.none

/-- Strip an optional leading sign; report whether it was `-`. -/
def splitSign (l : List Char) : Bool × List Char :=
  match l with
  | c :: r => if c = '-' then (true, r) else if c = '+' then (false, r) else (false, l)
  | [] => (false, l)

/-- A full (already lowercased, sign-stripped) numeric float
literal: mantissa and optional exponent, nothing left over. -/
def floatNumSyntax (l : List Char) : Bool :=
  match parseMantissa l with
  | some [] => true
  | some ('e' :: r) =>
    match parseDigitpart (splitSign r).2 with
    | some [] => true
    | _ => false
  | _ => false

/-- Strip surrounding whitespace and lowercase, the normalization
`float(str)` performs before parsing. -/
def stripLower (s : String) : List Char :=
  (((s.data.dropWhile pySpace).reverse.dropWhile pySpace).reverse).map asciiLower

/-- Whether `float` accepts the normalized text: a sign, then
`inf`, `infinity`, `nan`, or a numeric literal. -/
def isFloatCore (l0 : List Char) : Bool :=
  let l := (splitSign l0).2
  (l == ['i', 'n', 'f']) || (l == ['i', 'n', 'f', 'i', 'n', 'i', 't', 'y']) ||
    (l == ['n', 'a', 'n']) || floatNumSyntax l

/-- Whether `float(s)` succeeds (does not raise `ValueError`). -/
def isFloatSyntax (s : String) : Bool := isFloatCore (stripLower s)

/-- The value of an ASCII digit run. -/
def digitsVal (l : List Char) : Nat :=
  l.foldl (fun a c => a * 10 + (c.toNat - 48)) 0

/-- Model of `str(float(s))`: `none` when `float(s)` raises.  The
rendering is exact where the scripts' claims exercise it — an
optionally signed plain digit run below `2^53` is an exact double
and prints as the integer followed by `.0`.  For other accepted
literals (fractions, exponents, underscore separators, infinities)
the model keeps the normalized text in place of the
shortest-round-trip double rendering, which is outside the
embedding; no theorem below depends on that branch. -/
def pyStrFloatOfString (s : String) : Option String :=
  let l0 := stripLower s
  if isFloatCore l0 then
    let p := splitSign l0
    if !p.2.isEmpty && p.2.all isDigitA && decide (digitsVal p.2 < 9007199254740992) then
      some ((if p.1 then "-" else "") ++ toString (digitsVal p.2) ++ ".0")
    else some (String.mk l0)
  else Option.none

/-- Render `str(float(n))` for a Python int: exact below `2^53` (larger
magnitudes print in scientific notation, outside the modelled
domain and unused by any theorem). -/
def intFloatStr (n : Int) : String := toString n ++ ".0"

/-- Model of `str(float(value))` on the embedded domain, `none`
when `float(value)` raises (`TypeError` on `None` and datetimes,
`ValueError` on malformed strings). -/
def pyFloatStr : PyValue → Option String
  | .str s => pyStrFloatOfString s
  | .int n => some (intFloatStr n)
  | .bool b => some (if b then "1.0" else "0.0")
  | .nan => some "nan"
  | .none => Option.none
  | .datetime _ => Option.none

/-- Model of `value_str.replace("'", "''")`: double every single quote.
(Structural model of Python's `str.replace` for this pattern.) -/
def doubleQuotesL : List Char → List Char
  | [] => []
  | c :: rest =>
    if c = '\'' then '\'' :: '\'' :: doubleQuotesL rest else c :: doubleQuotesL rest

/-- String form of `doubleQuotesL`. -/
def doubleQuotes (s : String) : String := String.mk (doubleQuotesL s.data)

/-! ## The value escapers -/

/-- Function `escape_sql_value` of `csv_to_psql/csv_to_psql_with_data.py`,
textually identical in `xlsx_to_psql/xlsx_to_psql_with_data.py`:
NULL for missing values, TRUE/FALSE for BOOLEAN targets,
native-numeric pass-through or `str(float(...))` (NULL on parse
failure) for numeric targets, quoted pass-through for TIMESTAMP,
and quote-doubled quoting for everything else. -/
def escape_sql_value (value : PyValue) (col_type : String) : String :=
  if isNA value then "NULL"
  else if col_type = "BOOLEAN" then
    match value with
    | .bool b => if b then "TRUE" else "FALSE"
    | _ =>
      if ["true", "1", "yes", "sim"].contains (pyLower (pyStr value)) then "TRUE"
      else "FALSE"
  else if strContains col_type "INTEGER" || strContains col_type "BIGINT"
      || col_type = "NUMERIC" then
    if isNumericTypeValue value then pyStr value
    else
      match pyFloatStr value with
      | some r => r
      | Option.none => "NULL"
  else if col_type = "TIMESTAMP" then
    match value with
    | .datetime d => "'" ++ strftimeTs d ++ "'"
    | .str s => "'" ++ s ++ "'"
    | _ => "NULL"
  else
    "'" ++ doubleQuotes (pyStr value) ++ "'"

/-- Function `escape_sql_value` of `dbc_to_psql/dbc_to_psql_with_data.py`,
keyed on the DBF field type code (`L`, `D`, `T`, `N`, `F`)
instead of a SQL type name. -/
def dbc_escape_sql_value (value : PyValue) (field_type : String) : String :=
  if value = PyValue.none then "NULL"
  else
    let ft := pyUpper field_type
    if ft = "L" then
      match value with
      | .bool b => if b then "TRUE" else "FALSE"
      | _ =>
        if ["T", "TRUE", "1", "Y", "YES", "S", "SIM"].contains (pyUpper (pyStr value)) then
          "TRUE"
        else "FALSE"
    else if ft = "D" then
      match value with
      | .datetime d => "'" ++ strftimeDate d ++ "'"
      | .str s => "'" ++ s ++ "'"
      | _ => "NULL"
    else if ft = "T" then
      match value with
      | .datetime d => "'" ++ strftimeTs d ++ "'"
      | .str s => "'" ++ s ++ "'"
      | _ => "NULL"
    else if ft = "N" || ft = "F" then
      if value = PyValue.str "" then "NULL"
      else
        match pyFloatStr value with
        | some r => r
        | Option.none => "NULL"
    else
      "'" ++ doubleQuotes (pyStr value) ++ "'"

/-! ## The name sanitizer

`sanitize_name`, textually identical in
`csv_to_psql/csv_to_psql_with_data.py`,
`xlsx_to_psql/xlsx_to_psql_with_data.py` and
`dbc_to_psql/dbc_to_psql_with_data.py`. -/

/-- The class kept by `re.sub(r'[^a-zA-Z0-9\s_]', '', name)`. -/
def keepChar (c : Char) : Bool :=
  isUpperA c || isLowerA c || isDigitA c || pySpace c || c = '_'

/-- Whitespace-or-underscore, the class collapsed by
`re.sub(r'[\s_]+', '_', name)`. -/
def spaceOrUnd (c : Char) : Bool := pySpace c || c = '_'

/-- Model of `re.sub(r'[\s_]+', '_', name)`: each maximal run of
whitespace/underscores becomes a single underscore.  The flag
records whether we are inside a run whose underscore has already
been emitted. -/
def collapseAux : Bool → List Char → List Char
  | _, [] => []
  | inRun, c :: rest =>
    if spaceOrUnd c then
      if inRun then collapseAux true rest
      else '_' :: collapseAux true rest
    else c :: collapseAux false rest

/-- Model of `name.strip('_')`: drop leading and trailing underscores. -/
def stripUnd (l : List Char) : List Char :=
  (((l.dropWhile (· = '_')).reverse).dropWhile (· = '_')).reverse

/-- The sanitizer up to (and including) the `strip('_')` step:
filter, collapse, lowercase, strip. -/
def sanitizeCore (l : List Char) : List Char :=
  stripUnd ((collapseAux false (l.filter keepChar)).map asciiLower)

/-- Digit-prefix guard: `if name and name[0].isdigit(): name = 't_' + name`. -/
def sanitizeChars (l : List Char) : List Char :=
  match sanitizeCore l with
  | [] => []
  | c :: rest => if isDigitA c then 't' :: '_' :: c :: rest else c :: rest

/-- Function `sanitize_name(name)`: the full sanitizer, with the final
`return name if name else 'unnamed'`. -/
def sanitize_name (s : String) : String :=
  let r := sanitizeChars s.data
  if r.isEmpty then "unnamed" else String.mk r

/-! ## The type inferencer (`infer_postgres_type`)

A pandas `Series` is modelled by its dtype together with its cell
values; the `pd.api.types.is_*_dtype` tests read the dtype field.
`object` is the dtype pandas gives string columns, and
`is_string_dtype` holds of it. -/

/-- The pandas dtypes the inferencer distinguishes. -/
inductive Dtype where
  | int64
  | float64
  | boolDt
  | datetime64
  | object
deriving DecidableEq, Repr

/-- A pandas `Series`: a dtype and the column's cells. -/
structure Series where
  dtype : Dtype
  values : List PyValue
deriving DecidableEq, Repr

/-- Python `max` of a nonempty list of ints, as Python's builtin `max`;
the `[]` case is unreachable behind the source's emptiness guard. -/
def listMaxI : List Int → Int
  | [] => 0
  | x :: xs => xs.foldl max x

/-- Python `min` of a nonempty list of ints; `[]` unreachable as above. -/
def listMinI : List Int → Int
  | [] => 0
  | x :: xs => xs.foldl min x

/-- Pandas `.max()` of a series of string lengths; `0` for the empty list
is unreachable behind the source's emptiness guard. -/
def listMaxN (l : List Nat) : Nat := l.foldl max 0

/-- The integer cells of a column (an `int64` series holds only
these). -/
def intCells (l : List PyValue) : List Int :=
  l.filterMap fun v => match v with | .int n => some n | _ => Option.none

/-- Function `infer_postgres_type(series)`, identical in
`csv_to_psql/csv_to_psql_with_data.py` and
`xlsx_to_psql/xlsx_to_psql_with_data.py`: TEXT for an all-null
column; INTEGER/BIGINT by signed 32-bit range for integer dtype;
NUMERIC for float dtype; BOOLEAN; TIMESTAMP; VARCHAR/TEXT by
longest stringified length for string-like (object) dtype; TEXT
otherwise. -/
def infer_postgres_type (s : Series) : String :=
  let non_null := s.values.filter (fun v => !isNA v)
  if non_null.length = 0 then "TEXT"
  else if s.dtype = Dtype.int64 then
    let cells := intCells non_null
    if -2147483648 ≤ listMinI cells ∧ listMaxI cells ≤ 2147483647 then "INTEGER"
    else "BIGINT"
  else if s.dtype = Dtype.float64 then "NUMERIC"
  else if s.dtype = Dtype.boolDt then "BOOLEAN"
  else if s.dtype = Dtype.datetime64 then "TIMESTAMP"
  else if s.dtype = Dtype.object then
    let max_length := listMaxN (non_null.map fun v => (pyStr v).length)
    if max_length ≤ 255 then "VARCHAR(" ++ toString (max 255 max_length) ++ ")"
    else "TEXT"
  else "TEXT"

/-- The nullability computation of `csv_to_sql` (line 170):
`"NULL" if df[col].isna().any() else "NOT NULL"`. -/
def nullability (s : Series) : String :=
  if s.values.any isNA then "NULL" else "NOT NULL"

/-! ## SQL-line generation of `csv_to_sql`

The pure core of `csv_to_sql` (lines 146-217 of
`csv_to_psql/csv_to_psql_with_data.py`): building the `sql_lines`
list from the parsed DataFrame.  File discovery, delimiter
sniffing, the timestamp header (passed in as `now`) and file
output are outside the model, and the batch loop over row blocks
of 1000 only adds progress printing — the INSERT statements it
emits are exactly those of the flat row order used here. -/

/-- A parsed DataFrame: named, aligned columns. -/
structure DataFrame where
  cols : List (String × Series)
deriving Repr

/-- Python `len(df)`: the row count (columns are aligned). -/
def dfNumRows (df : DataFrame) : Nat :=
  match df.cols with
  | [] => 0
  | (_, s) :: _ => s.values.length

/-- Flag `df.empty`. -/
def dfEmpty (df : DataFrame) : Bool := dfNumRows df = 0

/-- One entry of `columns_info`: sanitized name, inferred type,
nullability and the original header. -/
structure ColInfo where
  name : String
  type : String
  nullable : String
  original : String
deriving Repr

/-- The `columns_info` loop (lines 161-176). -/
def columnsInfo (df : DataFrame) : List ColInfo :=
  df.cols.map fun c =>
    { name := sanitize_name c.1
      type := if dfEmpty df then "TEXT" else infer_postgres_type c.2
      nullable := if dfEmpty df then "NULL" else nullability c.2
      original := c.1 }

/-- One INSERT statement (lines 201-212) for row `i`. -/
def insertLine (df : DataFrame) (table_name : String) (infos : List ColInfo) (i : Nat) :
    String :=
  let col_names_str := String.intercalate ", " (infos.map ColInfo.name)
  let values := (df.cols.zip infos).map fun p =>
    escape_sql_value (p.1.2.values.getD i PyValue.none) p.2.type
  "INSERT INTO " ++ table_name ++ " (" ++ col_names_str ++ ") VALUES (" ++
    String.intercalate ", " values ++ ");\n"

/-- The `sql_lines` list built by `csv_to_sql` for one file:
header comments, CREATE TABLE, column comments, and one INSERT
per row. -/
def csv_sql_lines (df : DataFrame) (stem csv_name now : String) : List String :=
  let table_name := sanitize_name stem
  let infos := columnsInfo df
  (["-- Tabela gerada a partir de: " ++ csv_name ++ "\n",
    "-- Gerado em: " ++ now ++ "\n"] ++
   (if dfEmpty df then ["-- Arquivo contém apenas cabeçalho (sem dados)\n"] else []) ++
   ["\n", "CREATE TABLE IF NOT EXISTS " ++ table_name ++ " (\n"] ++
   (infos.map fun ci => "    " ++ ci.name ++ " " ++ ci.type ++ " " ++ ci.nullable) ++
   ["\n);\n\n", "-- Comentários sobre as colunas:\n"] ++
   (infos.map fun ci =>
     "COMMENT ON COLUMN " ++ table_name ++ "." ++ ci.name ++ " IS '" ++
       doubleQuotes ci.original ++ "';\n") ++
   ["\n"] ++
   (if dfNumRows df > 0 then
     ["-- Dados da tabela:\n"] ++
       ((List.range (dfNumRows df)).map (insertLine df table_name infos))
    else []))

/-! ## The schema extractor (`host-schema-psql_to_psql.py`)

The catalog queries are modelled by oracles on the connection: for
each query, a function of its parameters returning either the
fetched rows or the exception `psycopg2` raised while executing
it.  `closed` is the `conn.closed` flag each fetcher checks before
querying. -/

/-- The outcome of one `cur.execute(...); cur.fetchall()`. -/
inductive Fetch (α : Type) where
  | ok (rows : List α)
  | err (msg : String)

/-- One row of the `information_schema.columns` query of
`obter_colunas`. -/
structure ColRow where
  column_name : String
  data_type : String
  character_maximum_length : Option Nat
  numeric_precision : Option Nat
  numeric_scale : Option Nat
  is_nullable : String
  column_default : Option String

/-- A PostgreSQL connection, as the extractor sees it: the closed
flag and one oracle per catalog query (each a function of the
query's parameters, returning rows already filtered/ordered by the
server as the SQL text requests). -/
structure PgConn where
  closed : Bool
  colunasQ : String → String → Fetch ColRow
  pkQ : String → String → Fetch String
  fkQ : String → String → Fetch (String × String × String)
  kcuQ : String → String → String → Fetch String
  uniqueQ : String → String → Fetch (String × String)
  indicesQ : String → String → Fetch (String × String)

/-- Function `obter_colunas(conn, schema, tabela)`: empty on a closed
connection or a failed query, the fetched rows otherwise. -/
def obter_colunas (conn : PgConn) (schema tabela : String) : List ColRow :=
  if conn.closed then []
  else
    match conn.colunasQ schema tabela with
    | .ok rows => rows
    | .err _ => []

/-- The dict returned by `obter_constraints`. -/
structure Constraints where
  primary_keys : List String
  foreign_keys : List (String × List String × String × String × List String)
  unique : List (String × String)
deriving DecidableEq, Repr

/-- The empty constraints dict the fallback paths return. -/
def emptyConstraints : Constraints :=
  { primary_keys := [], foreign_keys := [], unique := [] }

/-- Lift one fetch into the exception monad of the enclosing
`try` block. -/
def fetchE {α : Type} : Fetch α → Except String (List α)
  | .ok rows => Except.ok rows
  | .err m => Except.error m

/-- The query sequence inside `obter_constraints`'s `try`: primary
keys, foreign-key constraints, per-constraint local and referenced
columns, unique constraints.  Any raising query aborts the whole
block. -/
def obter_constraints_run (conn : PgConn) (schema tabela : String) :
    Except String Constraints := do
  let primary_keys ← fetchE (conn.pkQ schema tabela)
  let fk_constraints ← fetchE (conn.fkQ schema tabela)
  let foreign_keys ← fk_constraints.mapM fun r => do
    let local_cols ← fetchE (conn.kcuQ r.1 schema tabela)
    let fk_cols ← fetchE (conn.kcuQ r.1 r.2.1 r.2.2)
    pure (r.1, local_cols, r.2.1, r.2.2, fk_cols)
  let unique_constraints ← fetchE (conn.uniqueQ schema tabela)
  pure { primary_keys := primary_keys, foreign_keys := foreign_keys,
         unique := unique_constraints }

/-- Function `obter_constraints(conn, schema, tabela)`: the empty dict on a
closed connection or on any failing query, the assembled dict
otherwise. -/
def obter_constraints (conn : PgConn) (schema tabela : String) : Constraints :=
  if conn.closed then emptyConstraints
  else
    match obter_constraints_run conn schema tabela with
    | Except.ok c => c
    | Except.error _ => emptyConstraints

/-- Function `obter_indices(conn, schema, tabela)`: empty on a closed
connection or a failed query, the fetched
`(indexname, indexdef)` rows otherwise. -/
def obter_indices (conn : PgConn) (schema tabela : String) : List (String × String) :=
  if conn.closed then []
  else
    match conn.indicesQ schema tabela with
    | .ok rows => rows
    | .err _ => []

/-! ## Auxiliary notions used by the theorems -/

/-- The output character class of the sanitizer: `[a-z0-9_]`. -/
def lowerIdentChar (c : Char) : Bool := isLowerA c || isDigitA c || c = '_'

/-- The invariant the sanitizer establishes (and preserves): a
non-empty identifier over `[a-z0-9_]` with no two adjacent
underscores, not starting or ending with an underscore, and not
starting with a digit. -/
def GoodIdent (l : List Char) : Prop :=
  l ≠ [] ∧ (∀ c ∈ l, lowerIdentChar c = true) ∧
  List.Chain' (fun a b => ¬(a = '_' ∧ b = '_')) l ∧
  l.head? ≠ some '_' ∧ l.head?.all (fun c => !isDigitA c) = true ∧
  l.getLast? ≠ some '_'

/-- Scan a literal body: every single-quote character must come
doubled. -/
def quotesDoubled : List Char → Bool
  | [] => true
  | '\'' :: '\'' :: rest => quotesDoubled rest
  | '\'' :: _ => false
  | _ :: rest => quotesDoubled rest

/-- A well-formed single-quoted SQL string literal: opening and
closing quote around a body in which every embedded quote is
doubled. -/
def wellFormedQuoted (s : String) : Bool :=
  match s.data with
  | [] => false
  | c :: rest =>
    c = '\'' && !rest.isEmpty && rest.getLast? == some '\'' && quotesDoubled rest.dropLast

/-- The 3-row, 2-column table of the end-to-end scenario: an
integer `id` column and a string `name` column with exactly one
missing value (pandas reads the missing cell as NaN). -/
def demoDf : DataFrame :=
  { cols := [("id", { dtype := Dtype.int64,
                      values := [PyValue.int 1, PyValue.int 2, PyValue.int 3] }),
             ("name", { dtype := Dtype.object,
                        values := [PyValue.str "alice", PyValue.nan, PyValue.str "bob"] })] }

/-- A connection whose closed flag is set (all queries would
succeed, but must not be reached). -/
def closedConn : PgConn :=
  { closed := true
    colunasQ := fun _ _ => Fetch.ok []
    pkQ := fun _ _ => Fetch.ok []
    fkQ := fun _ _ => Fetch.ok []
    kcuQ := fun _ _ _ => Fetch.ok []
    uniqueQ := fun _ _ => Fetch.ok []
    indicesQ := fun _ _ => Fetch.ok [] }

/-- An open connection on which every catalog query raises. -/
def failingConn : PgConn :=
  { closed := false
    colunasQ := fun _ _ => Fetch.err "connection reset"
    pkQ := fun _ _ => Fetch.err "connection reset"
    fkQ := fun _ _ => Fetch.err "connection reset"
    kcuQ := fun _ _ _ => Fetch.err "connection reset"
    uniqueQ := fun _ _ => Fetch.err "connection reset"
    indicesQ := fun _ _ => Fetch.err "connection reset" }

/-! ## Supporting lemmas -/

theorem foldl_max_le_iff (a : Int) :
    ∀ (xs : List Int) (x : Int), xs.foldl max x ≤ a ↔ x ≤ a ∧ ∀ y ∈ xs, y ≤ a := by
  intro xs
  induction xs with
  | nil => simp
  | cons y ys ih =>
    intro x
    rw [List.foldl_cons, ih]
    simp only [List.mem_cons, max_le_iff]
    constructor
    · rintro ⟨⟨h1, h2⟩, h3⟩
      exact ⟨h1, fun z hz => by rcases hz with rfl | hz; exact h2; exact h3 z hz⟩
    · rintro ⟨h1, h2⟩
      exact ⟨⟨h1, h2 y (Or.inl rfl)⟩, fun z hz => h2 z (Or.inr hz)⟩

theorem le_foldl_min_iff (a : Int) :
    ∀ (xs : List Int) (x : Int), a ≤ xs.foldl min x ↔ a ≤ x ∧ ∀ y ∈ xs, a ≤ y := by
  intro xs
  induction xs with
  | nil => simp
  | cons y ys ih =>
    intro x
    rw [List.foldl_cons, ih]
    simp only [List.mem_cons, le_min_iff]
    constructor
    · rintro ⟨⟨h1, h2⟩, h3⟩
      exact ⟨h1, fun z hz => by rcases hz with rfl | hz; exact h2; exact h3 z hz⟩
    · rintro ⟨h1, h2⟩
      exact ⟨⟨h1, h2 y (Or.inl rfl)⟩, fun z hz => h2 z (Or.inr hz)⟩

theorem digitTail_all_digit : ∀ l : List Char, l.all isDigitA = true → digitTail l = []
  | [], _ => rfl
  | [c], h => by
    simp only [List.all_cons, List.all_nil, Bool.and_true] at h
    simp [digitTail, h]
  | c :: d :: rest, h => by
    simp only [List.all_cons, Bool.and_eq_true] at h
    have ih := digitTail_all_digit (d :: rest)
      (by simp only [List.all_cons, Bool.and_eq_true]; exact h.2)
    simp [digitTail, h.1, ih]

theorem floatNumSyntax_all_digit (l : List Char) (hne : l ≠ [])
    (h : l.all isDigitA = true) : floatNumSyntax l = true := by
  cases l with
  | nil => exact absurd rfl hne
  | cons c rest =>
    simp only [List.all_cons, Bool.and_eq_true] at h
    have ht := digitTail_all_digit rest h.2
    simp [floatNumSyntax, parseMantissa, parseDigitpart, h.1, ht]

theorem digit_not_space {c : Char} (h : isDigitA c = true) : pySpace c = false := by
  by_contra hq
  rw [Bool.not_eq_false] at hq
  simp only [pySpace, Bool.or_eq_true, decide_eq_true_eq] at hq
  rcases hq with ((((rfl | rfl) | rfl) | rfl) | rfl) | rfl <;> exact absurd h (by decide)

theorem digit_asciiLower {c : Char} (h : isDigitA c = true) : asciiLower c = c := by
  simp only [isDigitA, Bool.and_eq_true, decide_eq_true_eq] at h
  unfold asciiLower
  rw [if_neg]
  simp only [isUpperA, Bool.and_eq_true, decide_eq_true_eq, not_and]
  omega

theorem dropWhile_eq_self_of_head (p : Char → Bool) (l : List Char)
    (h : ∀ c, l.head? = some c → p c = false) : l.dropWhile p = l := by
  cases l with
  | nil => rfl
  | cons c rest =>
    rw [List.dropWhile_cons, if_neg]
    simp [h c rfl]

theorem stripLower_all_digit (s : String)
    (h : s.data.all isDigitA = true) : stripLower s = s.data := by
  have hall := List.all_eq_true.mp h
  have hd1 : s.data.dropWhile pySpace = s.data :=
    dropWhile_eq_self_of_head _ _ fun c hc =>
      digit_not_space (hall c (List.mem_of_mem_head? (Option.mem_def.mpr hc)))
  have hd2 : s.data.reverse.dropWhile pySpace = s.data.reverse :=
    dropWhile_eq_self_of_head _ _ fun c hc =>
      digit_not_space (hall c (List.mem_reverse.mp
        (List.mem_of_mem_head? (Option.mem_def.mpr hc))))
  have hmapid : s.data.map asciiLower = s.data.map id :=
    List.map_congr_left fun c hc => digit_asciiLower (hall c hc)
  unfold stripLower
  rw [hd1, hd2, List.reverse_reverse, hmapid, List.map_id]

theorem splitSign_all_digit (l : List Char) (h : l.all isDigitA = true) :
    splitSign l = (false, l) := by
  cases l with
  | nil => rfl
  | cons c rest =>
    simp only [List.all_cons, Bool.and_eq_true] at h
    have h1 : ¬(c = '-') := fun heq => by subst heq; exact absurd h.1 (by decide)
    have h2 : ¬(c = '+') := fun heq => by subst heq; exact absurd h.1 (by decide)
    simp [splitSign, h1, h2]

theorem isFloatCore_all_digit (l : List Char) (hne : l ≠ [])
    (h : l.all isDigitA = true) : isFloatCore l = true := by
  unfold isFloatCore
  rw [splitSign_all_digit l h]
  simp [floatNumSyntax_all_digit l hne h]

theorem pyStrFloat_digit_string (s : String) (h1 : s.data ≠ [])
    (h2 : s.data.all isDigitA = true) (h3 : digitsVal s.data < 9007199254740992) :
    pyStrFloatOfString s = some (toString (digitsVal s.data) ++ ".0") := by
  unfold pyStrFloatOfString
  rw [stripLower_all_digit s h2]
  rw [if_pos (isFloatCore_all_digit s.data h1 h2), splitSign_all_digit s.data h2]
  rw [if_pos]
  · show some ("" ++ toString (digitsVal s.data) ++ ".0") = _
    rw [String.empty_append]
  · obtain ⟨c, rest, hd⟩ : ∃ c rest, s.data = c :: rest := by
      cases hcase : s.data with
      | nil => exact absurd hcase h1
      | cons c rest => exact ⟨c, rest, rfl⟩
    rw [hd] at h2 h3 ⊢
    simp [h2, h3]

theorem lowerIdent_not_space {c : Char} (h : lowerIdentChar c = true) : pySpace c = false := by
  by_contra hq
  rw [Bool.not_eq_false] at hq
  simp only [pySpace, Bool.or_eq_true, decide_eq_true_eq] at hq
  rcases hq with ((((rfl | rfl) | rfl) | rfl) | rfl) | rfl <;> exact absurd h (by decide)

theorem asciiLower_toNat_upper {c : Char} (h : isUpperA c = true) :
    (asciiLower c).toNat = c.toNat + 32 := by
  simp only [isUpperA, Bool.and_eq_true, decide_eq_true_eq] at h
  unfold asciiLower
  rw [if_pos]
  · unfold Char.ofNat
    rw [dif_pos]
    · rfl
    · constructor
      omega
  · simp only [isUpperA, Bool.and_eq_true, decide_eq_true_eq]
    omega

theorem asciiLower_not_upper {c : Char} (h : isUpperA c = false) : asciiLower c = c := by
  unfold asciiLower
  rw [if_neg]
  simp [h]

theorem asciiLower_underscore_iff {c : Char} : asciiLower c = '_' ↔ c = '_' := by
  constructor
  · intro h
    by_cases hu : isUpperA c = true
    · exfalso
      have := asciiLower_toNat_upper hu
      rw [h] at this
      simp only [isUpperA, Bool.and_eq_true, decide_eq_true_eq] at hu
      have h95 : ('_').toNat = 95 := by decide
      omega
    · have hu2 : isUpperA c = false := by simpa using hu
      rwa [asciiLower_not_upper hu2] at h
  · intro h
    subst h
    decide

theorem lowerIdent_asciiLower {c : Char}
    (h : isUpperA c = true ∨ lowerIdentChar c = true) :
    lowerIdentChar (asciiLower c) = true := by
  rcases h with h | h
  · have ht := asciiLower_toNat_upper h
    simp only [isUpperA, Bool.and_eq_true, decide_eq_true_eq] at h
    simp only [lowerIdentChar, isLowerA, isDigitA, Bool.or_eq_true, Bool.and_eq_true,
      decide_eq_true_eq]
    left
    left
    omega
  · have hu : isUpperA c = false := by
      by_contra hq
      rw [Bool.not_eq_false] at hq
      simp only [isUpperA, Bool.and_eq_true, decide_eq_true_eq] at hq
      simp only [lowerIdentChar, isLowerA, isDigitA, Bool.or_eq_true, Bool.and_eq_true,
        decide_eq_true_eq] at h
      rcases h with (h | h) | rfl
      · omega
      · omega
      · exact absurd hq (by decide)
    rwa [asciiLower_not_upper hu]

theorem collapseAux_mem :
    ∀ (l : List Char) (b : Bool) (c : Char),
      c ∈ collapseAux b l → c = '_' ∨ (c ∈ l ∧ spaceOrUnd c = false) := by
  intro l
  induction l with
  | nil => intro b c hc; simp [collapseAux] at hc
  | cons a rest ih =>
    intro b c hc
    by_cases ha : spaceOrUnd a = true
    · rw [collapseAux, if_pos ha] at hc
      cases b with
      | true =>
        rcases ih true c hc with h | ⟨h1, h2⟩
        · exact Or.inl h
        · exact Or.inr ⟨List.mem_cons_of_mem a h1, h2⟩
      | false =>
        rcases List.mem_cons.mp hc with rfl | hc2
        · exact Or.inl rfl
        · rcases ih true c hc2 with h | ⟨h1, h2⟩
          · exact Or.inl h
          · exact Or.inr ⟨List.mem_cons_of_mem a h1, h2⟩
    · rw [collapseAux, if_neg ha] at hc
      rcases List.mem_cons.mp hc with rfl | hc2
      · exact Or.inr ⟨List.mem_cons_self _ _, by simpa using ha⟩
      · rcases ih false c hc2 with h | ⟨h1, h2⟩
        · exact Or.inl h
        · exact Or.inr ⟨List.mem_cons_of_mem a h1, h2⟩

theorem collapseAux_chain :
    ∀ l : List Char,
      (∀ b, List.Chain' (fun x y => ¬(x = '_' ∧ y = '_')) (collapseAux b l)) ∧
      (∀ c, (collapseAux true l).head? = some c → spaceOrUnd c = false) := by
  intro l
  induction l with
  | nil => exact ⟨fun b => List.chain'_nil, fun c hc => by simp [collapseAux] at hc⟩
  | cons a rest ih =>
    by_cases ha : spaceOrUnd a = true
    · refine ⟨fun b => ?_, fun c hc => ?_⟩
      · cases b with
        | true => rw [collapseAux, if_pos ha]; exact ih.1 true
        | false =>
          rw [collapseAux, if_pos ha, if_neg Bool.false_ne_true]
          rw [List.chain'_cons']
          refine ⟨fun y hy => ?_, ih.1 true⟩
          have := ih.2 y (Option.mem_def.mp hy)
          rintro ⟨-, rfl⟩
          simp [spaceOrUnd] at this
      · rw [collapseAux, if_pos ha] at hc
        exact ih.2 c hc
    · have ha2 : spaceOrUnd a = false := by simpa using ha
      refine ⟨fun b => ?_, fun c hc => ?_⟩
      · rw [collapseAux, if_neg ha]
        rw [List.chain'_cons']
        refine ⟨fun y hy => ?_, ih.1 false⟩
        rintro ⟨rfl, -⟩
        simp [spaceOrUnd] at ha2
      · rw [collapseAux, if_neg ha] at hc
        simp only [List.head?_cons, Option.some.injEq] at hc
        subst hc
        exact ha2

theorem collapseAux_fix :
    ∀ (l : List Char) (b : Bool),
      (∀ c ∈ l, lowerIdentChar c = true) →
      List.Chain' (fun x y => ¬(x = '_' ∧ y = '_')) l →
      (b = true → ∀ c, l.head? = some c → c ≠ '_') →
      collapseAux b l = l := by
  intro l
  induction l with
  | nil => intro b _ _ _; rfl
  | cons a rest ih =>
    intro b hchars hchain hhead
    have hspace : pySpace a = false :=
      lowerIdent_not_space (hchars a (List.mem_cons_self _ _))
    rw [List.chain'_cons'] at hchain
    by_cases hau : a = '_'
    · subst hau
      have hb : b = false := by
        cases b with
        | false => rfl
        | true => exact absurd rfl (hhead rfl '_' rfl)
      subst hb
      rw [collapseAux, if_pos (by simp [spaceOrUnd]), if_neg Bool.false_ne_true]
      have htail : collapseAux true rest = rest := by
        apply ih true (fun c hc => hchars c (List.mem_cons_of_mem _ hc)) hchain.2
        intro _ c hc
        intro heq
        subst heq
        exact hchain.1 '_' (Option.mem_def.mpr hc) ⟨rfl, rfl⟩
      rw [htail]
    · have hsou : spaceOrUnd a = false := by
        simp [spaceOrUnd, hspace, hau]
      rw [collapseAux, if_neg (by simp [hsou])]
      rw [ih false (fun c hc => hchars c (List.mem_cons_of_mem _ hc)) hchain.2
        (fun h => absurd h Bool.false_ne_true)]

theorem head_dropWhile_not (p : Char → Bool) :
    ∀ (l : List Char) (c : Char), (l.dropWhile p).head? = some c → p c = false
  | [], c, h => by simp [List.dropWhile] at h
  | a :: rest, c, h => by
    rw [List.dropWhile_cons] at h
    by_cases hp : p a = true
    · rw [if_pos hp] at h
      exact head_dropWhile_not p rest c h
    · rw [if_neg hp] at h
      simp only [List.head?_cons, Option.some.injEq] at h
      subst h
      simpa using hp

theorem head?_eq_of_initSeg {l1 l2 : List Char} {c : Char} (h : l1 <+: l2)
    (hc : l1.head? = some c) : l2.head? = some c := by
  obtain ⟨t, rfl⟩ := h
  cases l1 with
  | nil => simp at hc
  | cons a r => simpa using hc

theorem stripUnd_initSeg (l : List Char) :
    stripUnd l <+: l.dropWhile (fun c => decide (c = '_')) := by
  unfold stripUnd
  apply List.reverse_suffix.mp
  rw [List.reverse_reverse]
  exact List.dropWhile_suffix _

theorem stripUnd_mem {l : List Char} {c : Char} (h : c ∈ stripUnd l) : c ∈ l :=
  (List.dropWhile_sublist _).subset ((stripUnd_initSeg l).sublist.subset h)

theorem stripUnd_head {l : List Char} {c : Char} (h : (stripUnd l).head? = some c) :
    c ≠ '_' := by
  have h2 := head?_eq_of_initSeg (stripUnd_initSeg l) h
  have h3 := head_dropWhile_not _ l c h2
  intro heq
  subst heq
  simp at h3

theorem stripUnd_getLast {l : List Char} {c : Char} (h : (stripUnd l).getLast? = some c) :
    c ≠ '_' := by
  unfold stripUnd at h
  rw [List.getLast?_reverse] at h
  have h3 := head_dropWhile_not _ _ c h
  intro heq
  subst heq
  simp at h3

theorem flip_noDoubleUnd :
    flip (fun x y : Char => ¬(x = '_' ∧ y = '_')) = fun x y : Char => ¬(x = '_' ∧ y = '_') := by
  funext x y
  apply propext
  unfold flip
  constructor
  · intro h hc
    exact h ⟨hc.2, hc.1⟩
  · intro h hc
    exact h ⟨hc.2, hc.1⟩

theorem stripUnd_chain {l : List Char}
    (h : List.Chain' (fun x y => ¬(x = '_' ∧ y = '_')) l) :
    List.Chain' (fun x y => ¬(x = '_' ∧ y = '_')) (stripUnd l) := by
  unfold stripUnd
  rw [List.chain'_reverse, flip_noDoubleUnd]
  apply List.Chain'.suffix ?_ (List.dropWhile_suffix _)
  rw [List.chain'_reverse, flip_noDoubleUnd]
  exact h.suffix (List.dropWhile_suffix _)

theorem stripUnd_fix {l : List Char}
    (hh : ∀ c, l.head? = some c → c ≠ '_')
    (hl : ∀ c, l.getLast? = some c → c ≠ '_') : stripUnd l = l := by
  unfold stripUnd
  have h1 : l.dropWhile (fun x => decide (x = '_')) = l := by
    apply dropWhile_eq_self_of_head
    intro c hc
    simp [hh c hc]
  rw [h1]
  have h2 : l.reverse.dropWhile (fun x => decide (x = '_')) = l.reverse := by
    apply dropWhile_eq_self_of_head
    intro c hc
    rw [List.head?_reverse] at hc
    simp [hl c hc]
  rw [h2, List.reverse_reverse]

theorem sanitizeCore_good (l : List Char) :
    (∀ c ∈ sanitizeCore l, lowerIdentChar c = true) ∧
    List.Chain' (fun x y => ¬(x = '_' ∧ y = '_')) (sanitizeCore l) ∧
    (∀ c, (sanitizeCore l).head? = some c → c ≠ '_') ∧
    (∀ c, (sanitizeCore l).getLast? = some c → c ≠ '_') := by
  unfold sanitizeCore
  refine ⟨?_, ?_, fun c hc => stripUnd_head hc, fun c hc => stripUnd_getLast hc⟩
  · intro c hc
    have hc2 := stripUnd_mem hc
    obtain ⟨c2, hc2mem, rfl⟩ := List.mem_map.1 hc2
    rcases collapseAux_mem _ false c2 hc2mem with rfl | ⟨hmem, hnsp⟩
    · apply lowerIdent_asciiLower
      right
      decide
    · have hk := (List.mem_filter.1 hmem).2
      apply lowerIdent_asciiLower
      simp only [keepChar, Bool.or_eq_true] at hk
      simp only [spaceOrUnd, Bool.or_eq_false_iff] at hnsp
      rcases hk with ((((hu | hlo) | hd) | hs) | he)
      · exact Or.inl hu
      · exact Or.inr (by simp [lowerIdentChar, hlo])
      · exact Or.inr (by simp [lowerIdentChar, hd])
      · rw [hnsp.1] at hs
        exact absurd hs (by decide)
      · exact Or.inr (by simp [lowerIdentChar, he])
  · apply stripUnd_chain
    rw [List.chain'_map]
    apply List.Chain'.imp ?_ ((collapseAux_chain _).1 false)
    intro a b hab
    intro hcon
    exact hab ⟨asciiLower_underscore_iff.mp hcon.1, asciiLower_underscore_iff.mp hcon.2⟩

theorem lowerIdent_keep {c : Char} (h : lowerIdentChar c = true) : keepChar c = true := by
  simp only [lowerIdentChar, Bool.or_eq_true] at h
  rcases h with (hl | hd) | he
  · simp [keepChar, hl]
  · simp [keepChar, hd]
  · simp [keepChar, he]

theorem lowerIdent_not_upper {c : Char} (h : lowerIdentChar c = true) :
    isUpperA c = false := by
  by_contra hq
  rw [Bool.not_eq_false] at hq
  simp only [isUpperA, Bool.and_eq_true, decide_eq_true_eq] at hq
  simp only [lowerIdentChar, isLowerA, isDigitA, Bool.or_eq_true, Bool.and_eq_true,
    decide_eq_true_eq] at h
  rcases h with (h | h) | rfl
  · omega
  · omega
  · exact absurd hq (by decide)

theorem sanitizeCore_fix {l : List Char} (h : GoodIdent l) : sanitizeCore l = l := by
  obtain ⟨hne, hchars, hchain, hhead, hdig, hlast⟩ := h
  unfold sanitizeCore
  have h1 : l.filter keepChar = l :=
    List.filter_eq_self.mpr fun c hc => lowerIdent_keep (hchars c hc)
  rw [h1]
  have h2 : collapseAux false l = l := by
    apply collapseAux_fix l false hchars hchain
    intro hfalse
    exact absurd hfalse Bool.false_ne_true
  rw [h2]
  have h3 : l.map asciiLower = l := by
    rw [List.map_congr_left fun c hc => asciiLower_not_upper (lowerIdent_not_upper (hchars c hc))]
    exact List.map_id l
  rw [h3]
  apply stripUnd_fix
  · intro c hc heq
    subst heq
    exact hhead hc
  · intro c hc heq
    subst heq
    exact hlast hc

theorem sanitize_name_fix {l : List Char} (h : GoodIdent l) :
    sanitize_name (String.mk l) = String.mk l := by
  have hcore : sanitizeCore l = l := sanitizeCore_fix h
  obtain ⟨hne, hchars, hchain, hhead, hdig, hlast⟩ := h
  unfold sanitize_name sanitizeChars
  show (let r := match sanitizeCore l with
        | [] => ([] : List Char)
        | c :: rest => if isDigitA c then 't' :: '_' :: c :: rest else c :: rest
        if r.isEmpty then "unnamed" else String.mk r) = String.mk l
  rw [hcore]
  cases hl : l with
  | nil => exact absurd hl hne
  | cons c rest =>
    have hcd : isDigitA c = false := by
      have := hdig
      rw [hl] at this
      simpa using this
    simp only [hcd, if_false]
    rfl

theorem digit_ne_underscore {c : Char} (h : isDigitA c = true) : c ≠ '_' := by
  intro heq
  subst heq
  exact absurd h (by decide)

theorem sanitize_name_good (s : String) : GoodIdent (sanitize_name s).data := by
  obtain ⟨hchars, hchain, hhead, hlast⟩ := sanitizeCore_good s.data
  unfold sanitize_name sanitizeChars
  cases hc : sanitizeCore s.data with
  | nil =>
    show GoodIdent ("unnamed" : String).data
    refine ⟨by decide, by decide, ?_, by decide, by decide, by decide⟩
    show List.Chain' (fun a b => ¬(a = '_' ∧ b = '_')) ['u', 'n', 'n', 'a', 'm', 'e', 'd']
    simp only [List.chain'_cons, List.chain'_singleton]
    decide
  | cons c rest =>
    rw [hc] at hchars hchain hhead hlast
    have hcne : c ≠ '_' := hhead c rfl
    by_cases hd : isDigitA c = true
    · show GoodIdent (if (if isDigitA c = true then 't' :: '_' :: c :: rest
          else c :: rest).isEmpty = true then "unnamed"
        else String.mk (if isDigitA c = true then 't' :: '_' :: c :: rest
          else c :: rest)).data
      rw [if_pos hd]
      show GoodIdent ('t' :: '_' :: c :: rest)
      refine ⟨by simp, ?_, ?_, by simp, rfl, ?_⟩
      · intro x hx
        rcases List.mem_cons.mp hx with rfl | hx
        · decide
        rcases List.mem_cons.mp hx with rfl | hx
        · decide
        · exact hchars x hx
      · rw [List.chain'_cons', List.chain'_cons']
        refine ⟨by simp, fun y hy => ?_, hchain⟩
        have hyc : c = y := by simpa using hy
        subst hyc
        rintro ⟨-, hc2⟩
        exact digit_ne_underscore hd hc2
      · rw [List.getLast?_cons_cons, List.getLast?_cons_cons]
        intro hg
        exact hlast '_' hg rfl
    · show GoodIdent (if (if isDigitA c = true then 't' :: '_' :: c :: rest
          else c :: rest).isEmpty = true then "unnamed"
        else String.mk (if isDigitA c = true then 't' :: '_' :: c :: rest
          else c :: rest)).data
      rw [if_neg hd]
      show GoodIdent (c :: rest)
      refine ⟨by simp, hchars, hchain, ?_, ?_, ?_⟩
      · intro hg
        exact hcne (by simpa using hg)
      · simp only [List.head?_cons, Option.all_some]
        simp [Bool.not_eq_true] at hd
        simp [hd]
      · intro hg
        exact hlast '_' hg rfl


/-! ## The claims -/

/-- C1: an integer-dtype column infers INTEGER when every value
fits the signed 32-bit range and BIGINT otherwise; the column
1,2,3 infers INTEGER and is NOT NULL. -/
theorem infer_integer_range (vals : List Int) (hne : vals ≠ []) :
    (infer_postgres_type ⟨Dtype.int64, vals.map PyValue.int⟩ =
      if ∀ n ∈ vals, -2147483648 ≤ n ∧ n ≤ 2147483647 then "INTEGER" else "BIGINT") ∧
    infer_postgres_type ⟨Dtype.int64, [PyValue.int 1, PyValue.int 2, PyValue.int 3]⟩ = "INTEGER" ∧
    nullability ⟨Dtype.int64, [PyValue.int 1, PyValue.int 2, PyValue.int 3]⟩ = "NOT NULL" := by
  refine ⟨?_, by decide, by decide⟩
  unfold infer_postgres_type
  have hfilter : (vals.map PyValue.int).filter (fun v => !isNA v) = vals.map PyValue.int := by
    rw [List.filter_eq_self]
    intro v hv
    obtain ⟨n, _, rfl⟩ := List.mem_map.1 hv
    rfl
  rw [hfilter]
  have hlen : ¬((vals.map PyValue.int).length = 0) := by
    simp only [List.length_map]
    intro h
    exact hne (List.eq_nil_of_length_eq_zero h)
  rw [if_neg hlen, if_pos rfl]
  have hcells : ∀ vs : List Int, intCells (vs.map PyValue.int) = vs := by
    intro vs
    induction vs with
    | nil => rfl
    | cons x xs ih => simp only [List.map_cons, intCells, List.filterMap_cons] at ih ⊢; simp [ih]
  rw [hcells]
  cases vals with
  | nil => exact absurd rfl hne
  | cons x xs =>
    apply if_congr ?_ rfl rfl
    unfold listMinI listMaxI
    rw [le_foldl_min_iff, foldl_max_le_iff]
    constructor
    · rintro ⟨⟨h1, h2⟩, h3, h4⟩ n hn
      rcases List.mem_cons.mp hn with rfl | hn
      · exact ⟨h1, h3⟩
      · exact ⟨h2 n hn, h4 n hn⟩
    · intro h
      exact ⟨⟨(h x (List.mem_cons_self x xs)).1, fun y hy => (h y (List.mem_cons_of_mem x hy)).1⟩,
             (h x (List.mem_cons_self x xs)).2, fun y hy => (h y (List.mem_cons_of_mem x hy)).2⟩

/-- Witness for C1 at the column [1,2,3]. -/
theorem infer_integer_range_witness :
    infer_postgres_type ⟨Dtype.int64, [PyValue.int 1, PyValue.int 2, PyValue.int 3]⟩ = "INTEGER" ∧
    nullability ⟨Dtype.int64, [PyValue.int 1, PyValue.int 2, PyValue.int 3]⟩ = "NOT NULL" :=
  ⟨(infer_integer_range [1, 2, 3] (by decide)).2.1,
   (infer_integer_range [1, 2, 3] (by decide)).2.2⟩

set_option maxRecDepth 4000 in

set_option maxRecDepth 4000 in
/-- C2: a string-like (object-dtype) column infers
VARCHAR(max(255, longest)) when the longest value is at most 255
characters — so always at least VARCHAR(255) — and TEXT beyond;
a single 300-character string infers TEXT. -/
theorem infer_varchar_text_widths (vals : List String) (hne : vals ≠ []) :
    (listMaxN (vals.map String.length) ≤ 255 →
      infer_postgres_type ⟨Dtype.object, vals.map PyValue.str⟩ =
        "VARCHAR(" ++ toString (max 255 (listMaxN (vals.map String.length))) ++ ")" ∧
      max 255 (listMaxN (vals.map String.length)) = 255) ∧
    (255 < listMaxN (vals.map String.length) →
      infer_postgres_type ⟨Dtype.object, vals.map PyValue.str⟩ = "TEXT") ∧
    infer_postgres_type ⟨Dtype.object, [PyValue.str (String.mk (List.replicate 300 'a'))]⟩ =
      "TEXT" := by
  have hfilter : (vals.map PyValue.str).filter (fun v => !isNA v) = vals.map PyValue.str := by
    rw [List.filter_eq_self]
    intro v hv
    obtain ⟨n, _, rfl⟩ := List.mem_map.1 hv
    rfl
  have hlen : ¬((vals.map PyValue.str).length = 0) := by
    simp only [List.length_map]
    intro h
    exact hne (List.eq_nil_of_length_eq_zero h)
  have hmap : (vals.map PyValue.str).map (fun v => (pyStr v).length) =
      vals.map String.length := by
    rw [List.map_map]
    rfl
  refine ⟨fun h => ⟨?_, ?_⟩, fun h => ?_, ?_⟩
  · unfold infer_postgres_type
    rw [hfilter, if_neg hlen]
    simp only [reduceIte]
    rw [if_neg (show ¬(Dtype.object = Dtype.int64) by decide),
      if_neg (show ¬(Dtype.object = Dtype.float64) by decide),
      if_neg (show ¬(Dtype.object = Dtype.boolDt) by decide),
      if_neg (show ¬(Dtype.object = Dtype.datetime64) by decide),
      hmap, if_pos h]
  · exact max_eq_left h
  · unfold infer_postgres_type
    rw [hfilter, if_neg hlen]
    simp only [reduceIte]
    rw [if_neg (show ¬(Dtype.object = Dtype.int64) by decide),
      if_neg (show ¬(Dtype.object = Dtype.float64) by decide),
      if_neg (show ¬(Dtype.object = Dtype.boolDt) by decide),
      if_neg (show ¬(Dtype.object = Dtype.datetime64) by decide),
      hmap, if_neg (by omega)]
  · decide

set_option maxRecDepth 4000 in
/-- Witness for C2 at concrete short and long columns. -/
theorem infer_varchar_text_widths_witness :
    infer_postgres_type ⟨Dtype.object, [PyValue.str "ab"]⟩ = "VARCHAR(255)" ∧
    infer_postgres_type ⟨Dtype.object, [PyValue.str (String.mk (List.replicate 300 'a'))]⟩ =
      "TEXT" :=
  ⟨(((infer_varchar_text_widths ["ab"] (by decide)).1 (by decide)).1).trans (by decide),
   (infer_varchar_text_widths ["ab"] (by decide)).2.2⟩

/-- C3: the value escaper is total over the embedded domain and
never raises: a null/missing value of any target type renders
NULL, and for the numeric target types INTEGER/BIGINT/NUMERIC a
string value on which the numeric parse fails renders NULL rather
than an error; in particular escaping "not-a-number" as INTEGER
gives NULL. -/
theorem escape_value_null_coercion :
    (∀ t, escape_sql_value PyValue.none t = "NULL") ∧
    (∀ t, escape_sql_value PyValue.nan t = "NULL") ∧
    (∀ s, isFloatSyntax s = false →
      escape_sql_value (PyValue.str s) "INTEGER" = "NULL" ∧
      escape_sql_value (PyValue.str s) "BIGINT" = "NULL" ∧
      escape_sql_value (PyValue.str s) "NUMERIC" = "NULL") ∧
    escape_sql_value (PyValue.str "not-a-number") "INTEGER" = "NULL" := by
  refine ⟨fun t => rfl, fun t => rfl, fun s h => ?_, by decide⟩
  unfold isFloatSyntax at h
  have hc : pyFloatStr (PyValue.str s) = Option.none := by
    show pyStrFloatOfString s = Option.none
    unfold pyStrFloatOfString
    simp [h]
  refine ⟨?_, ?_, ?_⟩
  · unfold escape_sql_value
    simp [isNA, isNumericTypeValue, hc,
      show strContains "INTEGER" "INTEGER" = true from by decide]
  · unfold escape_sql_value
    simp [isNA, isNumericTypeValue, hc,
      show strContains "BIGINT" "BIGINT" = true from by decide]
  · unfold escape_sql_value
    simp [isNA, isNumericTypeValue, hc]

/-- Witness for C3 at a concrete unparseable string. -/
theorem escape_value_null_coercion_witness :
    isFloatSyntax "abc" = false ∧
    escape_sql_value (PyValue.str "abc") "INTEGER" = "NULL" :=
  ⟨by decide, (escape_value_null_coercion.2.2.1 "abc" (by decide)).1⟩

/-- C4 counterexample: in the CSV/XLSX escaper the string "t" with
BOOLEAN target renders FALSE, although the claim's affirmative set
contains `t`. -/
theorem escape_boolean_t_renders_false :
    escape_sql_value (PyValue.str "t") "BOOLEAN" = "FALSE" := by decide

/-- C4 amended: native booleans render TRUE/FALSE in both
escapers; any other non-null value renders TRUE in the CSV/XLSX
escaper exactly when its lowercased `str(...)` lies in
{true,1,yes,sim}, and in the DBF escaper exactly when its
uppercased `str(...)` lies in {T,TRUE,1,Y,YES,S,SIM}; everything
else renders FALSE. -/
theorem escape_boolean_affirmative_sets :
    (∀ b, escape_sql_value (PyValue.bool b) "BOOLEAN" = if b then "TRUE" else "FALSE") ∧
    (∀ v, isNA v = false → (∀ b, v ≠ PyValue.bool b) →
      escape_sql_value v "BOOLEAN" =
        if ["true", "1", "yes", "sim"].contains (pyLower (pyStr v)) then "TRUE"
        else "FALSE") ∧
    (∀ b, dbc_escape_sql_value (PyValue.bool b) "L" = if b then "TRUE" else "FALSE") ∧
    (∀ v, v ≠ PyValue.none → (∀ b, v ≠ PyValue.bool b) →
      dbc_escape_sql_value v "L" =
        if ["T", "TRUE", "1", "Y", "YES", "S", "SIM"].contains (pyUpper (pyStr v)) then "TRUE"
        else "FALSE") := by
  refine ⟨fun b => by cases b <;> rfl, fun v h1 h2 => ?_,
    fun b => by cases b <;> rfl, fun v h1 h2 => ?_⟩
  · cases v with
    | none => simp [isNA] at h1
    | nan => simp [isNA] at h1
    | bool b => exact absurd rfl (h2 b)
    | int n => simp [escape_sql_value, isNA]
    | str s => simp [escape_sql_value, isNA]
    | datetime d => simp [escape_sql_value, isNA]
  · cases v with
    | none => exact absurd rfl h1
    | nan => simp [dbc_escape_sql_value, show pyUpper "L" = "L" from by decide]
    | bool b => exact absurd rfl (h2 b)
    | int n => simp [dbc_escape_sql_value, show pyUpper "L" = "L" from by decide]
    | str s => simp [dbc_escape_sql_value, show pyUpper "L" = "L" from by decide]
    | datetime d => simp [dbc_escape_sql_value, show pyUpper "L" = "L" from by decide]

/-- Witness for C4's amended claim at concrete values. -/
theorem escape_boolean_affirmative_sets_witness :
    escape_sql_value (PyValue.str "Sim") "BOOLEAN" = "TRUE" ∧
    dbc_escape_sql_value (PyValue.str "y") "L" = "TRUE" :=
  ⟨(escape_boolean_affirmative_sets.2.1 (PyValue.str "Sim") (by decide)
      (fun b h => by cases h)).trans (by decide),
   (escape_boolean_affirmative_sets.2.2.2 (PyValue.str "y") (by decide)
      (fun b h => by cases h)).trans (by decide)⟩

/-- C5: every schema-extraction step is independently
fault-tolerant: a closed connection detected before the query, or
a raising query, yields the empty result for the column fetch, the
constraint fetch and the index fetch instead of propagating the
failure. -/
theorem extractor_fault_tolerant (conn : PgConn) (schema tabela : String) :
    (conn.closed = true →
      obter_colunas conn schema tabela = [] ∧
      obter_constraints conn schema tabela = emptyConstraints ∧
      obter_indices conn schema tabela = []) ∧
    (∀ m, conn.colunasQ schema tabela = Fetch.err m →
      obter_colunas conn schema tabela = []) ∧
    (∀ m, obter_constraints_run conn schema tabela = Except.error m →
      obter_constraints conn schema tabela = emptyConstraints) ∧
    (∀ m, conn.pkQ schema tabela = Fetch.err m →
      obter_constraints_run conn schema tabela = Except.error m) ∧
    (∀ m, conn.indicesQ schema tabela = Fetch.err m →
      obter_indices conn schema tabela = []) := by
  refine ⟨fun h => ⟨?_, ?_, ?_⟩, fun m hm => ?_, fun m hm => ?_, fun m hm => ?_,
    fun m hm => ?_⟩
  · simp [obter_colunas, h]
  · simp [obter_constraints, h]
  · simp [obter_indices, h]
  · cases hc : conn.closed <;> simp [obter_colunas, hc, hm]
  · cases hc : conn.closed <;> simp [obter_constraints, hc, hm]
  · unfold obter_constraints_run
    rw [hm]
    rfl
  · cases hc : conn.closed <;> simp [obter_indices, hc, hm]

/-- Witness for C5 on a closed connection and on a connection
whose queries raise. -/
theorem extractor_fault_tolerant_witness :
    obter_colunas closedConn "public" "t" = [] ∧
    obter_constraints failingConn "public" "t" = emptyConstraints ∧
    obter_indices closedConn "public" "t" = [] :=
  ⟨((extractor_fault_tolerant closedConn "public" "t").1 rfl).1,
   (extractor_fault_tolerant failingConn "public" "t").2.2.1 "connection reset"
     ((extractor_fault_tolerant failingConn "public" "t").2.2.2.1 "connection reset" rfl),
   ((extractor_fault_tolerant closedConn "public" "t").1 rfl).2.2⟩

/-- C6 counterexample: on the 3-row end-to-end table the name
column is declared `VARCHAR(255) NULL`, not `TEXT NULL`: no
generated line contains "name TEXT". -/
theorem csv_demo_name_not_text :
    ((csv_sql_lines demoDf "t" "t.csv" "2024-01-01 00:00:00").any
      (fun l => strContains l "name TEXT")) = false ∧
    (csv_sql_lines demoDf "t" "t.csv" "2024-01-01 00:00:00").contains
      "    name VARCHAR(255) NULL" = true := by decide

/-- C6 amended: converting the 3-row table yields exactly 3 INSERT
statements, each rendering the name either single-quoted or as
NULL, preceded by a CREATE TABLE declaring the name column
`VARCHAR(255) NULL`. -/
theorem csv_demo_end_to_end :
    csv_sql_lines demoDf "t" "t.csv" "2024-01-01 00:00:00" =
      ["-- Tabela gerada a partir de: t.csv\n",
       "-- Gerado em: 2024-01-01 00:00:00\n",
       "\n",
       "CREATE TABLE IF NOT EXISTS t (\n",
       "    id INTEGER NOT NULL",
       "    name VARCHAR(255) NULL",
       "\n);\n\n",
       "-- Comentários sobre as colunas:\n",
       "COMMENT ON COLUMN t.id IS 'id';\n",
       "COMMENT ON COLUMN t.name IS 'name';\n",
       "\n",
       "-- Dados da tabela:\n",
       "INSERT INTO t (id, name) VALUES (1, 'alice');\n",
       "INSERT INTO t (id, name) VALUES (2, NULL);\n",
       "INSERT INTO t (id, name) VALUES (3, 'bob');\n"] ∧
    ((csv_sql_lines demoDf "t" "t.csv" "2024-01-01 00:00:00").filter
      (fun l => strContains l "INSERT INTO")).length = 3 := by decide

/-- C7: the name sanitizer is idempotent:
`sanitize(sanitize(x)) = sanitize(x)` for every string `x`. -/
theorem sanitize_name_idempotent (x : String) :
    sanitize_name (sanitize_name x) = sanitize_name x :=
  sanitize_name_fix (sanitize_name_good x)

/-- C8: sanitizer outputs are non-empty, drawn from `[a-z0-9_]`,
never digit-initial (`t_` is prepended when the stripped core
starts with a digit, and `unnamed` returned when it is empty);
the three spec examples evaluate as stated. -/
theorem sanitize_name_invariants (s : String) :
    sanitize_name s ≠ "" ∧
    (∀ c ∈ (sanitize_name s).data, lowerIdentChar c = true) ∧
    (∀ c, (sanitize_name s).data.head? = some c → isDigitA c = false) ∧
    (sanitizeCore s.data = [] → sanitize_name s = "unnamed") ∧
    (∀ c rest, sanitizeCore s.data = c :: rest → isDigitA c = true →
      (sanitize_name s).data = 't' :: '_' :: c :: rest) ∧
    sanitize_name "Client ID#1" = "client_id1" ∧
    sanitize_name "123abc" = "t_123abc" ∧
    sanitize_name "!!!" = "unnamed" := by
  obtain ⟨hne, hchars, hchain, hh, hdig, hl⟩ := sanitize_name_good s
  refine ⟨?_, hchars, ?_, ?_, ?_, by decide, by decide, by decide⟩
  · intro heq
    rw [heq] at hne
    exact hne rfl
  · intro c hc
    rw [hc] at hdig
    simpa using hdig
  · intro hc
    unfold sanitize_name sanitizeChars
    rw [hc]
    rfl
  · intro c rest hc hd
    unfold sanitize_name sanitizeChars
    rw [hc]
    show (if (if isDigitA c = true then 't' :: '_' :: c :: rest else c :: rest).isEmpty = true
        then "unnamed"
        else String.mk (if isDigitA c = true then 't' :: '_' :: c :: rest else c :: rest)).data =
      't' :: '_' :: c :: rest
    rw [if_pos hd]
    rfl

/-- Witness for C8 at the spec's concrete examples. -/
theorem sanitize_name_invariants_witness :
    sanitize_name "!!!" = "unnamed" ∧
    (sanitize_name "123abc").data = ['t', '_', '1', '2', '3', 'a', 'b', 'c'] :=
  ⟨(sanitize_name_invariants "!!!").2.2.2.1 (by decide),
   (sanitize_name_invariants "123abc").2.2.2.2.1 '1' ['2', '3', 'a', 'b', 'c']
     (by decide) (by decide)⟩

/-- C9: with a numeric target type, a string value that parses as
a number renders via `str(float(value))`: a digit string such as
"42" is emitted as the float-formatted "42.0", not as the integer
literal "42". -/
theorem escape_digit_string_renders_float (s : String) (h1 : s.data ≠ [])
    (h2 : s.data.all isDigitA = true) (h3 : digitsVal s.data < 9007199254740992) :
    escape_sql_value (PyValue.str s) "INTEGER" = toString (digitsVal s.data) ++ ".0" ∧
    escape_sql_value (PyValue.str s) "NUMERIC" = toString (digitsVal s.data) ++ ".0" ∧
    escape_sql_value (PyValue.str "42") "INTEGER" = "42.0" ∧ ("42.0" : String) ≠ "42" := by
  have hp : pyFloatStr (PyValue.str s) = some (toString (digitsVal s.data) ++ ".0") :=
    pyStrFloat_digit_string s h1 h2 h3
  refine ⟨?_, ?_, by decide, by decide⟩
  · unfold escape_sql_value
    simp [isNA, isNumericTypeValue, hp,
      show strContains "INTEGER" "INTEGER" = true from by decide]
  · unfold escape_sql_value
    simp [isNA, isNumericTypeValue, hp]

/-- Witness for C9 at the digit string "42". -/
theorem escape_digit_string_renders_float_witness :
    escape_sql_value (PyValue.str "42") "INTEGER" = "42.0" ∧ ("42.0" : String) ≠ "42" :=
  ⟨(escape_digit_string_renders_float "42" (by decide) (by decide) (by decide)).2.2.1,
   (escape_digit_string_renders_float "42" (by decide) (by decide) (by decide)).2.2.2⟩

/-- C10: in both the pandas-based and DBF escapers a string value
with TIMESTAMP (respectively DBF date/datetime) target is wrapped
in single quotes without doubling embedded quotes — unlike the
TEXT/VARCHAR path, which doubles them — so a value containing a
quote yields a malformed quoted literal. -/
theorem timestamp_string_quotes_unescaped :
    (∀ s, escape_sql_value (PyValue.str s) "TIMESTAMP" = "'" ++ s ++ "'") ∧
    (∀ s, dbc_escape_sql_value (PyValue.str s) "D" = "'" ++ s ++ "'") ∧
    (∀ s, dbc_escape_sql_value (PyValue.str s) "T" = "'" ++ s ++ "'") ∧
    (∀ s, escape_sql_value (PyValue.str s) "TEXT" = "'" ++ doubleQuotes s ++ "'") ∧
    escape_sql_value (PyValue.str "12:00'") "TIMESTAMP" = "'12:00''" ∧
    wellFormedQuoted "'12:00''" = false ∧
    wellFormedQuoted (escape_sql_value (PyValue.str "12:00'") "TEXT") = true := by
  refine ⟨fun s => rfl, fun s => rfl, fun s => rfl, fun s => rfl, by decide, by decide,
    by decide⟩
